import Mathlib

/-!
Verification of the Proximity peer-messaging core, a shallow embedding of
`src/app.js`.

Modelling conventions:

* The wire channel uses the platform built-ins `JSON.stringify` / `JSON.parse`
  together with UTF-8 `TextEncoder` / `TextDecoder`.  Those built-ins are
  modelled at the JSON value level: an inbound payload is `none` when its byte
  string does not parse as JSON (truncated or structurally malformed input,
  where `JSON.parse` throws), and `some j` when it parses to the JSON value
  `j`.  `JSON.stringify` of the message object literal is the corresponding
  `Json.obj` value.
* IndexedDB requests complete asynchronously; request outcomes are passed as
  explicit boolean parameters (`appendOk`), and each code path records which
  callbacks can run for each outcome.
* JS exceptions are modelled with the `Except` monad; `try`/`catch` is
  `tryCatch` below.
-/

namespace Proximity

/-- JSON values, the result type of the platform `JSON.parse` (`undefined`
never occurs in parsed JSON).  Numbers are restricted to the integers the
application actually produces and compares (`new Date().getTime()`). -/
inductive Json where
  | null : Json
  | bool : Bool → Json
  | num : Int → Json
  | str : String → Json
  | arr : List Json → Json
  | obj : List (String × Json) → Json

/-- JS property access `v[k]` on a parsed JSON value: `some` when `v` is an
object providing field `k` (for duplicate keys, `JSON.parse` keeps the last
occurrence), `none` (JS `undefined`) when the field is absent or `v` is a
non-object primitive.  Property access on `null` throws a `TypeError`; the
caller (`handleIncomingMessage`) models that case separately. -/
def Json.getField (j : Json) (k : String) : Option Json :=
  match j with
  | .obj fields => fields.foldl (fun acc kv => if kv.1 = k then some kv.2 else acc) none
  | _ => none

/-- The own-field names of a parsed JSON object, in insertion order. -/
def Json.fieldNames (j : Json) : List String :=
  match j with
  | .obj fields => fields.map Prod.fst
  | _ => []

/-- The message value built in `sendMessage` (src/app.js:232-236). -/
structure Message where
  sender : String
  text : String
  timestamp : Int
deriving DecidableEq, Repr

/-- `JSON.stringify(message)` for the object literal built in `sendMessage`
(src/app.js:232-236, 244), at the JSON value level: exactly the three own
fields, in insertion order.  IndexedDB key injection happens on the structured
clone stored by `add`, not on the original object, so the assigned `id` never
appears in the encoded payload. -/
def encodeMessage (m : Message) : Json :=
  .obj [("sender", .str m.sender), ("text", .str m.text), ("timestamp", .num m.timestamp)]

/-- JS `String.prototype.trim` whitespace (WhiteSpace plus LineTerminator;
the common code points). -/
def jsIsSpace (c : Char) : Bool :=
  c = ' ' || c = '\t' || c = '\n' || c = '\r' || c = '\x0b' || c = '\x0c' ||
    c = '\u00A0' || c = '\uFEFF'

/-- JS `String.prototype.trim`: strip leading and trailing whitespace. -/
def jsTrim (s : String) : String :=
  ⟨((s.data.dropWhile jsIsSpace).reverse.dropWhile jsIsSpace).reverse⟩

/-- JS strict equality `x === y` between a property-access result and a
string: true exactly when `x` is the same string; `undefined` (`none`) and
values of any other runtime type are never strictly equal to a string. -/
def jsStrictEqStr (x : Option Json) (y : String) : Bool :=
  match x with
  | some (.str s) => s == y
  | _ => false

/-- Observable effects of one inbound notification through
`handleIncomingMessage` (src/app.js:159-173) and, when reached,
`saveAndRenderMessage` (src/app.js:126-132). -/
structure ReceiveEffects where
  /-- the `catch` branch ran (the payload was dropped by exception) -/
  caught : Bool
  /-- number of `store.add` requests issued on the `messages` store -/
  appendCount : Nat
  /-- number of `renderMessage(message, false)` invocations (tag "theirs") -/
  renderTheirsCount : Nat
deriving DecidableEq, Repr

/-- `handleIncomingMessage` (src/app.js:159-173) followed by
`saveAndRenderMessage` (src/app.js:126-132).

`payload` is the decoded inbound byte string: `none` when `JSON.parse`
throws (truncated or structurally malformed text), `some j` when it parses
to `j`.  `username` is `userProfile.username`; `appendOk` is the outcome of
the IndexedDB `add` request, whose `onsuccess` callback is the only call
site of `renderMessage` on this path (the `onerror` handler only logs).

The `try` block spans the parse, the sender guard and the
`saveAndRenderMessage` call, so every exception raised inside it is caught
and the payload dropped with no store mutation:
* `JSON.parse` throwing on truncated or structurally malformed text
  (`payload = none`);
* the `TypeError` thrown by the property access `message.sender` when the
  payload is the JSON text `null`;
* the `DataError` that `store.add` throws synchronously when the value is a
  bare primitive (string, number, boolean): the `messages` store uses the
  in-line key path `id` with a key generator, and the generated key cannot
  be injected into a value that is neither an object nor an array, so no
  request is created, nothing is stored and nothing rendered.

There is no schema check: an object or array payload (the two shapes a key
can be injected into) goes to the sender guard
`message.sender !== userProfile.username` and, unless that strict equality
holds, on to `store.add` as-is — an array has no `sender` field, so it is
always appended. -/
def handleIncomingMessage (payload : Option Json) (username : String)
    (appendOk : Bool) : ReceiveEffects :=
  match payload with
  | none => ⟨true, 0, 0⟩
  | some .null => ⟨true, 0, 0⟩
  | some (.bool _) => ⟨true, 0, 0⟩
  | some (.num _) => ⟨true, 0, 0⟩
  | some (.str _) => ⟨true, 0, 0⟩
  | some j =>
    if jsStrictEqStr (j.getField "sender") username then
      ⟨false, 0, 0⟩
    else
      ⟨false, 1, if appendOk then 1 else 0⟩

/-- Observable effects of one `sendMessage` call (src/app.js:228-255). -/
structure SendEffects where
  /-- number of `store.add` requests issued on the `messages` store -/
  appendCount : Nat
  /-- number of `renderMessage(message, true)` invocations (tag "mine") -/
  renderMineCount : Nat
  /-- number of per-peer `characteristic.writeValue` calls issued -/
  broadcastAttempts : Nat
deriving DecidableEq, Repr

/-- `sendMessage` (src/app.js:228-255) with the IndexedDB `add` outcome made
explicit.  After the empty-input/unset-profile guard, `saveAndRenderMessage`
issues the `add` request and returns without awaiting it; `renderMessage`
runs only in that request's `onsuccess` callback.  `sendMessage` then clears
the input and runs the broadcast loop over every connected peer
unconditionally — nothing awaits or inspects the `add` outcome before the
per-peer writes, and a failed write is caught inside the loop so every peer
is attempted (see `broadcastLoop`). -/
def sendMessage (inputValue : String) (username : String)
    (peers : List String) (appendOk : Bool) : SendEffects :=
  let text := jsTrim inputValue
  if text.length = 0 ∨ username = "" then ⟨0, 0, 0⟩
  else ⟨1, if appendOk then 1 else 0, peers.length⟩

/-- Recorded outcome of one per-peer write in the broadcast loop. -/
inductive WriteOutcome where
  | success : WriteOutcome
  | failure : WriteOutcome
deriving DecidableEq, Repr

/-- JS `try`/`catch`: run the body; a thrown exception transfers control to
the handler. -/
def tryCatch {ε α : Type} (body : Except ε α) (handler : ε → Except ε α) :
    Except ε α :=
  match body with
  | .ok a => .ok a
  | .error e => handler e

/-- The broadcast loop of `sendMessage` (src/app.js:246-254) in the exception
monad: for each peer in registry order, `await peer.characteristic.writeValue`
(which may throw a transport error) runs inside a `try`/`catch` whose handler
only logs the failure, and the loop continues with the next peer.  The value
collects the per-peer outcomes in order; an exception escaping to the caller
would surface as `.error`. -/
def broadcastLoop {ε : Type} (peers : List String)
    (write : String → Except ε Unit) : Except ε (List (String × WriteOutcome)) :=
  match peers with
  | [] => .ok []
  | p :: rest => do
    let o ← tryCatch (do
        let _ ← write p
        pure WriteOutcome.success)
      (fun _e => pure WriteOutcome.failure)
    let os ← broadcastLoop rest write
    pure ((p, o) :: os)

/-- Scheduling events of the broadcast loop. -/
inductive BroadcastEvent where
  | issueWrite : String → BroadcastEvent
  | awaitCompletion : String → BroadcastEvent
deriving DecidableEq, Repr

/-- Order of asynchronous operations in the broadcast loop
(src/app.js:247-254): each iteration issues `writeValue` for one peer and
`await`s that promise before the next iteration issues the next write. -/
def broadcastEvents (peers : List String) : List BroadcastEvent :=
  match peers with
  | [] => []
  | p :: rest => .issueWrite p :: .awaitCompletion p :: broadcastEvents rest

/-- Whether an event is the issuing of a write. -/
def BroadcastEvent.isIssue : BroadcastEvent → Bool
  | .issueWrite _ => true
  | .awaitCompletion _ => false

/-- The fan-out shape the specification requires: every per-peer write is
issued before any completion is awaited, i.e. the event trace is all the
issue events (in order) followed by all the await events. -/
def issuesBeforeAwaits (evs : List BroadcastEvent) : Prop :=
  evs = evs.filter BroadcastEvent.isIssue ++
    evs.filter (fun e => !e.isIssue)

/-- Timing of a broadcast event trace: `dur p` is how long peer `p`'s write
takes to complete.  Issuing a write is instantaneous; awaiting a completion
advances the clock by that peer's duration.  Each event is paired with the
time at which it happens. -/
def eventTimes (dur : String → Nat) :
    List BroadcastEvent → Nat → List (BroadcastEvent × Nat)
  | [], _t => []
  | .issueWrite p :: rest, t => (.issueWrite p, t) :: eventTimes dur rest t
  | .awaitCompletion p :: rest, t =>
      (.awaitCompletion p, t + dur p) :: eventTimes dur rest (t + dur p)

/-- A record of the `messages` object store: the stored message together with
the key that the store's auto-increment key generator injected at the
`keyPath` `id` (src/app.js:70). -/
structure MsgRec where
  id : Nat
  sender : String
  text : String
  timestamp : Int
deriving DecidableEq, Repr

/-- The `messages` object store (src/app.js:69-72): records in insertion
order together with the state of the auto-increment key generator, which
starts at 1 and never reuses a key. -/
structure MessageStore where
  nextId : Nat
  records : List MsgRec
deriving DecidableEq, Repr

/-- A freshly created `messages` store. -/
def emptyStore : MessageStore := ⟨1, []⟩

/-- `store.add(message)` on the success path (src/app.js:129): the key
generator assigns the next key, the record is stored, and the generator
advances. -/
def MessageStore.addRecord (s : MessageStore) (m : Message) : MessageStore :=
  ⟨s.nextId + 1, s.records ++ [⟨s.nextId, m.sender, m.text, m.timestamp⟩]⟩

/-- A store after a sequence of successful appends, local or remote
(src/app.js:126-132). -/
def appendAll (ms : List Message) : MessageStore :=
  ms.foldl MessageStore.addRecord emptyStore

/-- Record order of the `timestamp` index (src/app.js:71): IndexedDB keeps
index records sorted by index key (the `timestamp` property), with ties
ordered by primary key (the auto-increment `id`). -/
def idxLe (a b : MsgRec) : Prop :=
  a.timestamp < b.timestamp ∨ (a.timestamp = b.timestamp ∧ a.id ≤ b.id)

instance : DecidableRel idxLe := fun a b =>
  decidable_of_iff
    (a.timestamp < b.timestamp ∨ (a.timestamp = b.timestamp ∧ a.id ≤ b.id))
    Iff.rfl

/-- `loadMessages` (src/app.js:112-124): replay the store by walking a cursor
over the `timestamp` index, i.e. the records in index order — the insertion
sort of the stored records by `idxLe` models the sorted index maintained by
the engine. -/
def loadMessages (s : MessageStore) : List MsgRec :=
  List.insertionSort idxLe s.records

/-- Result of one `scanForPeers` attempt as observed by its caller. -/
inductive ConnectResult where
  | connected : ConnectResult
  | alreadyConnected : ConnectResult
  | connectError : ConnectResult
deriving DecidableEq, Repr

/-- Observable effects of one `scanForPeers` attempt (src/app.js:176-206). -/
structure ConnectEffects where
  /-- the `connectedPeers` map keys afterwards, in insertion order -/
  registry : List String
  result : ConnectResult
  /-- number of `device.gatt.connect()` calls issued -/
  gattConnects : Nat
  /-- number of notification subscriptions added
  (`startNotifications` + `addEventListener`) -/
  subscriptions : Nat
deriving DecidableEq, Repr

/-- `scanForPeers` (src/app.js:176-206) after discovery returned a device
with id `deviceId`.  The `connectedPeers.has` check returns before any GATT
connect or subscription when the id is already present, logging
"Already connected".  Otherwise the connect sequence
(`gatt.connect` → `getPrimaryService` → `getCharacteristic` →
`startNotifications` → `addEventListener`) runs; `transportOk` abstracts
whether any of those awaited steps throws.  Only after the whole sequence
succeeds is the entry inserted into the map; on failure the `catch` logs and
no entry is inserted. -/
def connectPeer (registry : List String) (deviceId : String)
    (transportOk : Bool) : ConnectEffects :=
  if deviceId ∈ registry then ⟨registry, .alreadyConnected, 0, 0⟩
  else if transportOk then ⟨registry ++ [deviceId], .connected, 1, 1⟩
  else ⟨registry, .connectError, 1, 0⟩

/-- `onDisconnected` (src/app.js:208-212): `connectedPeers.delete(deviceId)`
removes the entry for that key (if present). -/
def disconnectPeer (registry : List String) (deviceId : String) : List String :=
  registry.filter (fun d => d ≠ deviceId)

/-- A registry lifecycle event: a connect attempt (with the transport
outcome for its awaited steps) or a disconnect. -/
inductive RegOp where
  | connect : String → Bool → RegOp
  | disconnect : String → RegOp
deriving DecidableEq, Repr

/-- Apply one lifecycle event to the `connectedPeers` key set. -/
def applyOp (registry : List String) : RegOp → List String
  | .connect d ok => (connectPeer registry d ok).registry
  | .disconnect d => disconnectPeer registry d

/-- The `connectedPeers` key set after a sequence of connects and
disconnects, starting from the empty map (src/app.js:18). -/
def applyOps (ops : List RegOp) : List String :=
  ops.foldl applyOp []

/-- The string assigned to `messageBubble.innerHTML` by `renderMessage`
(src/app.js:139-142), with the template literal's exact whitespace: the
sender (or the literal `You` for own messages) and the text are interpolated
directly into the markup. -/
def renderMessageHTML (isMe : Bool) (sender text : String) : String :=
  "\n            <div class=\"message-sender\">" ++
    (if isMe then "You" else sender) ++
    "</div>\n            <div class=\"message-text\">" ++
    text ++
    "</div>\n        "

/-- The outcome the broadcast loop records for one peer, given how that
peer's `writeValue` promise settled. -/
def outcomeOf {ε : Type} : Except ε Unit → WriteOutcome
  | .ok _ => .success
  | .error _ => .failure

instance : IsTotal MsgRec idxLe := by
  constructor
  intro a b
  unfold idxLe
  omega

instance : IsTrans MsgRec idxLe := by
  constructor
  intro a b c hab hbc
  unfold idxLe at hab hbc ⊢
  omega

/-! ## Theorems -/

/-- C1, counterexample: with a non-empty input, the local profile set, one
connected peer and a failing IndexedDB `add`, `sendMessage` issues the append
(which fails, so no render happens) and still issues the broadcast write to
the peer — the broadcast is not gated on the append having completed
successfully. -/
theorem sendLocal_broadcasts_despite_append_failure :
    (sendMessage "hi" "alice" ["peer-1"] false).appendCount = 1 ∧
    (sendMessage "hi" "alice" ["peer-1"] false).renderMineCount = 0 ∧
    (sendMessage "hi" "alice" ["peer-1"] false).broadcastAttempts = 1 := by
  refine ⟨rfl, rfl, rfl⟩

/-- C1 (amended): when the append fails, the render callback does not run —
on both the local-send and remote-receive paths it is invoked only from the
`add` request's success callback — but the peer broadcast of a local send is
issued regardless: `sendMessage` performs the same per-peer writes whether
the append succeeds or fails, because it never awaits the `add` request. -/
theorem append_failure_blocks_render_not_broadcast :
    ∀ (input username : String) (peers : List String),
      (sendMessage input username peers false).renderMineCount = 0 ∧
      (sendMessage input username peers false).broadcastAttempts =
        (sendMessage input username peers true).broadcastAttempts ∧
      (∀ (payload : Option Json) (u : String),
        (handleIncomingMessage payload u false).renderTheirsCount = 0) := by
  intro input username peers
  refine ⟨?_, ?_, ?_⟩
  · unfold sendMessage
    by_cases h : (jsTrim input).length = 0 ∨ username = "" <;> simp [h]
  · unfold sendMessage
    by_cases h : (jsTrim input).length = 0 ∨ username = "" <;> simp [h]
  · intro payload u
    cases payload with
    | none => rfl
    | some j =>
      cases j <;>
        first
          | rfl
          | (simp only [handleIncomingMessage]
             split <;> rfl)

/-- C7: encoding a message and decoding the resulting payload is the
identity on the `sender`, `text` and `timestamp` fields; the wire object is
self-describing (its field names are exactly `sender`, `text`, `timestamp`,
in insertion order) and carries no other, local-only field — in particular
not the store-assigned `id`. -/
theorem encode_decode_roundtrip :
    ∀ m : Message,
      Json.getField (encodeMessage m) "sender" = some (.str m.sender) ∧
      Json.getField (encodeMessage m) "text" = some (.str m.text) ∧
      Json.getField (encodeMessage m) "timestamp" = some (.num m.timestamp) ∧
      Json.fieldNames (encodeMessage m) = ["sender", "text", "timestamp"] := by
  intro m
  refine ⟨rfl, rfl, rfl, rfl⟩

/-- C9: the markup string assigned to `innerHTML` contains the message text
verbatim — character for character, with no escaping or sanitization — for
every rendered message, and likewise the raw sender string whenever the
message is rendered as "theirs" (`isMe = false`), which is how every
accepted remote message is rendered. -/
theorem render_interpolates_verbatim :
    ∀ sender text : String,
      (∃ pre post : String,
        renderMessageHTML false sender text = pre ++ sender ++ post) ∧
      (∀ isMe : Bool, ∃ pre post : String,
        renderMessageHTML isMe sender text = pre ++ text ++ post) := by
  intro sender text
  constructor
  · exact ⟨"\n            <div class=\"message-sender\">",
      "</div>\n            <div class=\"message-text\">" ++ text ++
        "</div>\n        ",
      by simp [renderMessageHTML, String.append_assoc]⟩
  · intro isMe
    exact ⟨"\n            <div class=\"message-sender\">" ++
        (if isMe then "You" else sender) ++
        "</div>\n            <div class=\"message-text\">",
      "</div>\n        ",
      by simp [renderMessageHTML, String.append_assoc]⟩

/-- C4, counterexample: with two connected peers the broadcast event trace is
issue A, await A, issue B, await B — the loop awaits peer A's completion
before issuing peer B's write, so the writes are not all issued before any
completion is awaited. -/
theorem broadcast_not_issue_all_first :
    ¬ issuesBeforeAwaits (broadcastEvents ["peer-A", "peer-B"]) := by
  unfold issuesBeforeAwaits
  decide

/-- The issue event of the j-th peer in the broadcast trace happens at the
start time plus the completion durations of all earlier peers. -/
theorem eventTimes_issue_mem :
    ∀ (peers : List String) (dur : String → Nat) (t : Nat) (j : Nat)
      (h : j < peers.length),
      (BroadcastEvent.issueWrite (peers.get ⟨j, h⟩),
        t + ((peers.take j).map dur).sum) ∈
        eventTimes dur (broadcastEvents peers) t := by
  intro peers
  induction peers with
  | nil =>
    intro dur t j h
    exact absurd h (by simp)
  | cons p rest ih =>
    intro dur t j h
    cases j with
    | zero => simp [broadcastEvents, eventTimes]
    | succ j' =>
      have h' : j' < rest.length := by simpa using h
      have hm := ih dur (t + dur p) j' h'
      simp only [broadcastEvents, eventTimes, List.mem_cons]
      right; right
      simpa [Nat.add_assoc] using hm

/-- C4 (amended): the broadcast fan-out is sequential, not issue-all-first:
each iteration awaits the current peer's write before the next write is
issued, so the j-th peer's write is issued only at the accumulated
completion time of all earlier peers' writes — one slow or unresponsive
peer delays delivery to every peer after it (though every peer's write is
still issued, and failures stay isolated, cf. C3). -/
theorem broadcast_sequential_fanout :
    ∀ (peers : List String) (dur : String → Nat) (j : Nat)
      (h : j < peers.length),
      (BroadcastEvent.issueWrite (peers.get ⟨j, h⟩),
        ((peers.take j).map dur).sum) ∈
        eventTimes dur (broadcastEvents peers) 0 := by
  intro peers dur j h
  simpa using eventTimes_issue_mem peers dur 0 j h

/-- C4, witness for the amended theorem: with peer A taking 100 time units,
peer B's write is issued only at time 100. -/
theorem broadcast_sequential_fanout_witness :
    (BroadcastEvent.issueWrite "B", 100) ∈
      eventTimes (fun p => if p = "A" then 100 else 1)
        (broadcastEvents ["A", "B"]) 0 := by
  have h := broadcast_sequential_fanout ["A", "B"]
    (fun p => if p = "A" then 100 else 1) 1 (by decide)
  simpa using h

/-- The broadcast loop never lets an exception escape — each per-peer write
runs inside its own `try`/`catch` — and records exactly one outcome per
peer, in registry order. -/
theorem broadcastLoop_eq_map {ε : Type} (peers : List String)
    (write : String → Except ε Unit) :
    broadcastLoop peers write =
      .ok (peers.map fun p => (p, outcomeOf (write p))) := by
  induction peers with
  | nil => rfl
  | cons p rest ih =>
    simp only [broadcastLoop, List.map_cons]
    rw [ih]
    cases hw : write p <;>
      simp [tryCatch, outcomeOf, hw, Bind.bind, Except.bind, Pure.pure,
        Except.pure]

/-- C3: broadcasting over connected peers when exactly peer k's write throws
a transport error: the loop completes normally (no exception reaches the
caller), every other peer still has its write attempted and recorded as a
success, and exactly one failure is recorded — peer k's. -/
theorem broadcast_isolates_peer_failure :
    ∀ (ε : Type) (peers : List String) (write : String → Except ε Unit)
      (k : String),
      peers.Nodup → k ∈ peers →
      (∃ e, write k = .error e) →
      (∀ p, p ≠ k → write p = .ok ()) →
      ∃ outcomes,
        broadcastLoop peers write = .ok outcomes ∧
        outcomes.length = peers.length ∧
        (∀ p ∈ peers, p ≠ k → (p, WriteOutcome.success) ∈ outcomes) ∧
        outcomes.countP (fun po => po.2 == WriteOutcome.failure) = 1 := by
  intro ε peers write k hnd hk hke hothers
  obtain ⟨e, hke⟩ := hke
  refine ⟨peers.map fun p => (p, outcomeOf (write p)),
    broadcastLoop_eq_map peers write, by simp, ?_, ?_⟩
  · intro p hp hpk
    have hop : outcomeOf (write p) = .success := by
      rw [hothers p hpk]
      rfl
    exact List.mem_map.mpr ⟨p, hp, by rw [hop]⟩
  · rw [List.countP_map]
    have hcount : List.countP (fun p => p == k) peers = 1 :=
      List.count_eq_one_of_mem hnd hk
    rw [← hcount]
    apply List.countP_congr
    intro p hp
    by_cases hpk : p = k
    · subst hpk
      simp [Function.comp, hke, outcomeOf]
    · simp [Function.comp, hothers p hpk, outcomeOf, hpk]

/-- C3, witness: two peers A and B where B's write throws — the loop yields
per-peer outcomes with A attempted and successful and exactly one recorded
failure. -/
theorem broadcast_isolates_peer_failure_witness :
    ∃ outcomes,
      broadcastLoop (ε := Unit) ["A", "B"]
        (fun p => if p = "B" then .error () else .ok ()) = .ok outcomes ∧
      outcomes.length = (["A", "B"] : List String).length ∧
      (∀ p ∈ (["A", "B"] : List String), p ≠ "B" →
        (p, WriteOutcome.success) ∈ outcomes) ∧
      outcomes.countP (fun po => po.2 == WriteOutcome.failure) = 1 := by
  exact broadcast_isolates_peer_failure Unit ["A", "B"]
    (fun p => if p = "B" then .error () else .ok ()) "B"
    (by decide) (by decide) ⟨(), rfl⟩
    (fun p hp => by simp [hp])

/-- One registry lifecycle event preserves distinctness of the keys of the
`connectedPeers` map. -/
theorem applyOp_nodup {registry : List String} (h : registry.Nodup)
    (op : RegOp) : (applyOp registry op).Nodup := by
  cases op with
  | connect d ok =>
    simp only [applyOp, connectPeer]
    by_cases hd : d ∈ registry
    · simpa [hd] using h
    · by_cases hok : ok
      · simp only [hd, hok, if_neg, if_pos, ite_true, ite_false]
        simp [List.nodup_append, h, hd]
      · simpa [hd, hok] using h
  | disconnect d =>
    exact h.filter _

/-- Starting from the empty map, any sequence of connect and disconnect
events leaves the registry keys distinct. -/
theorem applyOps_nodup (ops : List RegOp) : (applyOps ops).Nodup := by
  suffices h : ∀ init : List String, init.Nodup →
      (ops.foldl applyOp init).Nodup by
    exact h [] List.nodup_nil
  induction ops with
  | nil =>
    intro init h
    simpa using h
  | cons op rest ih =>
    intro init h
    exact ih _ (applyOp_nodup h op)

/-- C6: the registry maps at most one entry per device id.  A connect
attempt for an id that already has a live entry is a no-op reporting
AlreadyConnected — no GATT connect issued, no subscription added, the map
unchanged — and after any sequence of connects and disconnects starting
from the empty map, every device id has at most one entry. -/
theorem registry_unique_per_device :
    (∀ (registry : List String) (d : String) (ok : Bool), d ∈ registry →
      connectPeer registry d ok = ⟨registry, .alreadyConnected, 0, 0⟩) ∧
    (∀ (ops : List RegOp) (d : String), (applyOps ops).count d ≤ 1) := by
  constructor
  · intro registry d ok hd
    simp [connectPeer, hd]
  · intro ops d
    exact List.nodup_iff_count_le_one.mp (applyOps_nodup ops) d

/-- C6, witness: a second connect for an already-registered device is a
no-op reporting AlreadyConnected, and a duplicate-connect/disconnect
sequence leaves at most one entry for the id. -/
theorem registry_unique_per_device_witness :
    connectPeer ["dev-1"] "dev-1" true = ⟨["dev-1"], .alreadyConnected, 0, 0⟩ ∧
    (applyOps [.connect "dev-1" true, .connect "dev-1" true,
      .connect "dev-2" true, .disconnect "dev-2"]).count "dev-1" ≤ 1 := by
  exact ⟨registry_unique_per_device.1 ["dev-1"] "dev-1" true (by decide),
    registry_unique_per_device.2 _ "dev-1"⟩

/-- Store invariant: every stored record's id is below the key generator's
next key, and ids are strictly increasing in insertion order — the key
generator never reuses or reorders keys. -/
theorem appendAll_ids_invariant (ms : List Message) :
    ∀ s : MessageStore,
      (∀ r ∈ s.records, r.id < s.nextId) →
      s.records.Pairwise (fun a b => a.id < b.id) →
      (∀ r ∈ (ms.foldl MessageStore.addRecord s).records,
        r.id < (ms.foldl MessageStore.addRecord s).nextId) ∧
      (ms.foldl MessageStore.addRecord s).records.Pairwise
        (fun a b => a.id < b.id) := by
  induction ms with
  | nil =>
    intro s h1 h2
    exact ⟨h1, h2⟩
  | cons m rest ih =>
    intro s h1 h2
    apply ih
    · intro r hr
      simp only [MessageStore.addRecord, List.mem_append,
        List.mem_singleton] at hr
      rcases hr with hr | hr
      · exact Nat.lt_succ_of_lt (h1 r hr)
      · simp [MessageStore.addRecord, hr]
    · simp only [MessageStore.addRecord]
      rw [List.pairwise_append]
      refine ⟨h2, by simp, ?_⟩
      intro a ha b hb
      simp only [List.mem_singleton] at hb
      subst hb
      exact h1 a ha

/-- C8: replaying the store returns the full history — a permutation of the
stored records — in ascending timestamp order with ties in id order, for
every store reachable by a sequence of appends (in particular appends out of
timestamp order); ids are assigned strictly increasing in append order, so
the tie-break field reproduces the original append order.  On the concrete
out-of-order scenario — appends at timestamps 2000, 1000, 3000 — the replay
is ordered 1000, 2000, 3000 carrying the original ids 2, 1, 3. -/
theorem loadMessages_ordered_replay :
    ∀ ms : List Message,
      (loadMessages (appendAll ms)).Perm (appendAll ms).records ∧
      List.Sorted idxLe (loadMessages (appendAll ms)) ∧
      (appendAll ms).records.Pairwise (fun a b => a.id < b.id) ∧
      loadMessages (appendAll
          [⟨"a", "m1", 2000⟩, ⟨"b", "m2", 1000⟩, ⟨"c", "m3", 3000⟩]) =
        [⟨2, "b", "m2", 1000⟩, ⟨1, "a", "m1", 2000⟩, ⟨3, "c", "m3", 3000⟩] := by
  intro ms
  refine ⟨List.perm_insertionSort idxLe _, List.sorted_insertionSort idxLe _,
    (appendAll_ids_invariant ms emptyStore (by simp [emptyStore])
      (by simp [emptyStore])).2, by decide⟩

end Proximity
